import Mathlib

/-!
CoopTask: cooperative tasks and the portable example driver.

A shallow embedding of `src/CoopTask.h` (class `CoopTask`: constants, data
members, constructor, inline accessors, static suspend operations) and of the
scheduler pass in `examples/portable/portable.cpp` (the body of `for (;;)` in
`main`).

Machine integers are natural numbers or integers; 32-bit wrap-around is written
out with `% 4294967296` where arithmetic can overflow.

The header only declares `run`, `getFreeStack`, `_exit`, `_yield`, `_sleep`,
`_delay` and `_delayMicroseconds`; their bodies are not part of the sources
at hand.  Those functions are modelled from the specification text, and each
such definition says so in its doc comment.  The `uint32_t` value that `run()`
returns is not modelled.
-/

set_option autoImplicit false

/-! ## Constants of `CoopTask.h` (lines 34-43) -/

/-- The three branches of the `#if defined(ESP32) / #elif defined(ESP8266) / #else`
block that fixes `MAXSTACKSPACE`. -/
inductive Platform where
  | esp32
  | esp8266
  | other
deriving DecidableEq, Repr

/-- Number of values of a `uint32_t`. -/
def UINT32_RANGE : Nat := 4294967296

/-- Source: `static constexpr uint32_t STACKCOOKIE = 0xdeadbeef;` -/
def STACKCOOKIE : Nat := 0xdeadbeef

/-- Size `sizeof(STACKCOOKIE)`: the cookie is a `uint32_t`, four bytes. -/
def SIZEOF_STACKCOOKIE : Nat := 4

/-- Constant `MAXSTACKSPACE`, one value per platform branch. -/
def MAXSTACKSPACE : Platform → Nat
  | .esp32 => 0x2000
  | .esp8266 => 0x1000
  | .other => 0x180

/-- Constant `DEFAULTTASKSTACKSIZE = MAXSTACKSPACE - 2 * sizeof(STACKCOOKIE)`, evaluated as
the unsigned 32-bit subtraction it is in the header (wrapping if it underflowed). -/
def DEFAULTTASKSTACKSIZE (p : Platform) : Nat :=
  (UINT32_RANGE + MAXSTACKSPACE p - (2 * SIZEOF_STACKCOOKIE) % UINT32_RANGE) % UINT32_RANGE

/-- Source: `static constexpr int32_t DELAYMICROS_THRESHOLD = 50;` -/
def DELAYMICROS_THRESHOLD : Nat := 50

/-! ## Data model of `CoopTask` (lines 51-64) -/

/-- The behaviour of a task function (`taskfunc_t`, an `int()` callable) as seen by
the runtime: the sequence of suspend operations it performs, ending by returning a
code or by calling `CoopTask::exit`.  The tail `k` of each suspending constructor is
the continuation a later `run()` resumes (what `env_yield` saves).  `touch bytes k`
is not a suspension: the body has used `bytes` bytes of its stack at the deepest and
goes on with `k`. -/
inductive Body where
  | ret (code : Int)
  | exit (code : Int)
  | yield (k : Body)
  | sleep (k : Body)
  | delay (ms : Nat) (k : Body)
  | delayMicroseconds (us : Nat) (k : Body)
  | touch (bytes : Nat) (k : Body)
deriving DecidableEq, Repr

/-- The array `taskStackTop` points to, as far as free stack space is concerned: the
number of bytes of the task's stack that the body has touched so far.  Where the
guard words lie and in which direction the stack grows is not represented. -/
structure StackArray where
  touched : Nat
deriving DecidableEq, Repr

/-- The data members of `class CoopTask`, with their names.  `taskStackTop` is
`none` for `nullptr` and otherwise the allocated array.  `jmp_buf env_yield` is the
saved continuation of the body; `jmp_buf env` (the context of the caller of `run()`)
carries no information in a function that returns to its caller and is left out. -/
structure CoopTask where
  taskName : String
  func : Body
  taskStackSize : Nat
  taskStackTop : Option StackArray
  env_yield : Body
  delay_ms : Bool
  delay_exp : Nat
  init : Bool
  cont : Bool
  _exitCode : Int
  delayed : Bool
  sleeps : Bool
deriving DecidableEq, Repr

namespace CoopTask

/-- The constructor `CoopTask(name, _func, stackSize = DEFAULTTASKSTACKSIZE)`:
the member initialiser list sets `taskName`, `func`, `taskStackSize`; every other
member takes its default member initialiser (lines 54-64).  `stackSize = none`
stands for the omitted argument.  `env_yield` is uninitialised in the source; the
model starts it at the beginning of the body. -/
def new (p : Platform) (name : String) (_func : Body) (stackSize : Option Nat) : CoopTask :=
  { taskName := name
    func := _func
    taskStackSize := stackSize.getD (DEFAULTTASKSTACKSIZE p)
    taskStackTop := none
    env_yield := _func
    delay_ms := false
    delay_exp := 0
    init := false
    cont := true
    _exitCode := 0
    delayed := false
    sleeps := false }

/-- Source: `const String& name() const { return taskName; }` -/
def name (t : CoopTask) : String := t.taskName

/-- Source: `int exitCode() { return _exitCode; }` -/
def exitCode (t : CoopTask) : Int := t._exitCode

/-- Source: `bool delayIsMs() { return delay_ms; }` -/
def delayIsMs (t : CoopTask) : Bool := t.delay_ms

/-- Source: `void sleep(const bool state) { sleeps = state; }` -/
def sleep (t : CoopTask) (state : Bool) : CoopTask := { t with sleeps := state }

/-- Source: `bool sleeping() { return sleeps; }` -/
def sleeping (t : CoopTask) : Bool := t.sleeps

end CoopTask

/-! ## Clocks and 32-bit arithmetic -/

/-- Readings of the two wrapping 32-bit counters `millis()` and `micros()`. -/
structure Clock where
  millis : Nat
  micros : Nat
deriving DecidableEq, Repr

/-- Unsigned 32-bit addition, `a + b` on `uint32_t`. -/
def add32 (a b : Nat) : Nat := (a + b) % UINT32_RANGE

/-- Unsigned 32-bit subtraction, `a - b` on `uint32_t`. -/
def sub32 (a b : Nat) : Nat :=
  (UINT32_RANGE + a % UINT32_RANGE - b % UINT32_RANGE) % UINT32_RANGE

/-- The conversion `static_cast<int32_t>(x)` of a 32-bit pattern. -/
def toInt32 (x : Nat) : Int :=
  if x % UINT32_RANGE < 2147483648 then ((x % UINT32_RANGE : Nat) : Int)
  else ((x % UINT32_RANGE : Nat) : Int) - 4294967296

/-- The conversion `static_cast<uint32_t>(x)` of an integer value. -/
def toUInt32 (x : Int) : Nat := (x % 4294967296).toNat

/-! ## Member functions declared in `CoopTask.h` whose bodies are not in the sources -/

namespace CoopTask

/-- Modelled from the spec: the body of `_exit(code)` is missing.  "Body completion
(normal return or explicit exit) frees the stack and sets state Exited with the
given/returned code." -/
def _exit (t : CoopTask) (code : Int) : CoopTask :=
  { t with cont := false, _exitCode := code, taskStackTop := none }

/-- Modelled from the spec: the body of `_yield()` is missing.  "yield(): transition
to Runnable, save continuation, transfer control back to run()'s caller." -/
def _yield (t : CoopTask) : CoopTask := { t with delayed := false }

/-- Modelled from the spec: the body of `_sleep()` is missing.  "sleep(): mark a
sleeping flag without changing delay state." -/
def _sleep (t : CoopTask) : CoopTask := { t with sleeps := true }

/-- Modelled from the spec: the body of `_delay(ms)` is missing.  "delay(ms): compute
deadline = now(ms) + ms, set state Delayed with millisecond unit, suspend exactly as
yield does."  The sum is a `uint32_t` and wraps. -/
def _delay (t : CoopTask) (now : Clock) (ms : Nat) : CoopTask :=
  { t with delay_ms := true, delay_exp := add32 now.millis ms, delayed := true }

/-- Modelled from the spec: the body of `_delayMicroseconds(us)` is missing.  "If us
is below the fixed short-delay threshold, set state Delayed with microsecond unit and
deadline = now(us) + us; otherwise fall back to millisecond delay."  The fallback
delays for the whole milliseconds contained in `us`. -/
def _delayMicroseconds (t : CoopTask) (now : Clock) (us : Nat) : CoopTask :=
  if us < DELAYMICROS_THRESHOLD then
    { t with delay_ms := false, delay_exp := add32 now.micros us, delayed := true }
  else _delay t now (us / 1000)

/-- Modelled from the spec: stack allocation on the first `run()` is missing from the
sources.  "Allocate the stack, install sentinels at both ends ... enter a state in which
the task body begins executing on the new stack."  The body has touched nothing of a
newly allocated stack. -/
def allocate (t : CoopTask) : CoopTask :=
  { t with taskStackTop := some ⟨0⟩, init := true, env_yield := t.func }

/-- Modelled from the spec: the body uses its stack ("the body's actual working-set").
The number of touched bytes of the allocated array never goes down. -/
def touchStack (t : CoopTask) (bytes : Nat) : CoopTask :=
  { t with taskStackTop := t.taskStackTop.map (fun s => ⟨max s.touched bytes⟩) }

/-- Modelled from the spec: the remaining delay of a delayed task, the 32-bit
difference between the deadline `delay_exp` and the clock chosen by `delay_ms` (the
header: "true: delay_exp is vs. millis(); false: delay_exp is vs. micros()"). -/
def remainingDelay (t : CoopTask) (now : Clock) : Nat :=
  sub32 t.delay_exp (if t.delay_ms then now.millis else now.micros)

/-- Modelled from the spec: whether the deadline has elapsed.  "Comparisons must be
wraparound-safe (e.g., compare via signed difference rather than magnitude)": the
deadline has elapsed when the remaining delay, read as `int32_t`, is not positive. -/
def delayElapsed (t : CoopTask) (now : Clock) : Bool :=
  decide (toInt32 (t.remainingDelay now) ≤ 0)

/-- Modelled from the spec: the body runs from the continuation `b` on.  "The task
body runs until it suspends or returns": stack use is recorded on the way, the
suspend operation reached is performed on the task and the rest of the body is saved
as the new continuation; a body that returns or exits ends the task. -/
def resumeBody : Body → CoopTask → Clock → CoopTask
  | .ret code, t, _ => t._exit code
  | .exit code, t, _ => t._exit code
  | .yield k, t, _ => _yield { t with env_yield := k }
  | .sleep k, t, _ => _sleep { t with env_yield := k }
  | .delay ms k, t, now => _delay { t with env_yield := k } now ms
  | .delayMicroseconds us k, t, now => _delayMicroseconds { t with env_yield := k } now us
  | .touch bytes k, t, now => resumeBody k (t.touchStack bytes) now

/-- Modelled from the spec: resuming the saved continuation of the task. -/
def resume (t : CoopTask) (now : Clock) : CoopTask := resumeBody t.env_yield t now

/-- Modelled from the spec: the state in which `run()` hands control to the body.
The task is no longer delayed (its deadline has elapsed), and on the first run the
stack is allocated first. -/
def started (t : CoopTask) : CoopTask :=
  if t.init = true then { t with delayed := false } else ({ t with delayed := false }).allocate

/-- Modelled from the spec: the effect of `run()` on the task; the body of `run()` is
missing (the header only declares `uint32_t run();`).  "If state is Exited: run() is a
no-op.  If state is Delayed: if the deadline has not elapsed, run() must return
immediately without resuming the body.  If elapsed, resume.  If state is
NotInitialized: allocate the stack ... the task body begins executing.  If state is
Runnable/Sleeping: resume the task's saved continuation."  The `uint32_t` result is
not part of the model. -/
def run (t : CoopTask) (now : Clock) : CoopTask :=
  if !t.cont then t
  else if t.delayed && !t.delayElapsed now then t
  else t.started.resume now

end CoopTask

/-! ## The static suspend operations (lines 105-121) -/

/-- What a call through the static pointer `current` amounts to.  `done` is the
member function having run on the pointed-to task, `aborted` an abort raised by the
code, `undefined` the dereference of a null pointer, for which the language defines
no behaviour. -/
inductive Outcome (α : Type) where
  | done (result : α)
  | aborted
  | undefined
deriving DecidableEq, Repr

/-- Whether an outcome is a diagnosable failure. -/
def Outcome.failsLoudly {α : Type} : Outcome α → Bool
  | .aborted => true
  | _ => false

/-- The expression `current->member(...)`: the source dereferences `current`
without testing it. -/
def viaCurrent {α : Type} (current : Option CoopTask) (member : CoopTask → α) : Outcome α :=
  match current with
  | some t => .done (member t)
  | none => .undefined

namespace CoopTask.Static

/-- Source: `static bool running() { return current; }` -/
def running (current : Option CoopTask) : Bool := current.isSome

/-- Source: `static void exit(int code = 0) { current->_exit(code); }` -/
def exit (current : Option CoopTask) (code : Int) : Outcome CoopTask :=
  viaCurrent current (fun t => t._exit code)

/-- Source: `static void yield() { current->_yield(); }` -/
def yield (current : Option CoopTask) : Outcome CoopTask :=
  viaCurrent current (fun t => t._yield)

/-- Source: `static void sleep() { current->_sleep(); }` -/
def sleep (current : Option CoopTask) : Outcome CoopTask :=
  viaCurrent current (fun t => t._sleep)

/-- Source: `static void delay(uint32_t ms) { current->_delay(ms); }` -/
def delay (current : Option CoopTask) (now : Clock) (ms : Nat) : Outcome CoopTask :=
  viaCurrent current (fun t => t._delay now ms)

/-- Source: `static void delayMicroseconds(uint32_t us) { current->_delayMicroseconds(us); }` -/
def delayMicroseconds (current : Option CoopTask) (now : Clock) (us : Nat) :
    Outcome CoopTask :=
  viaCurrent current (fun t => t._delayMicroseconds now us)

end CoopTask.Static

/-! ## The scheduler pass of `examples/portable/portable.cpp` (lines 85-103) -/

/-- The operations of `BasicCoopTask<>` that `main` uses on the task registry and on
tasks.  Their declarations are not in the sources, so they are parameters: `W` is the
state of the program (registry and tasks), `T` the type of task pointers.
`size` is `getRunnableTasks().size()`, `load w i` is `getRunnableTasks()[i].load()`
(`none` for a null slot), `run` is `task->run()` with its effect on the state,
`delayed` is `task->delayed()`, `exitCode` is `task->exitCode()`.  The result of
`run()` is an integer: the header declares it `uint32_t`, while `main` compares it
with 0 as a signed value and casts it to `uint32_t`, so both readings are covered.
The loop counter `i` is a `uint32_t`; registry sizes are taken to fit in one. -/
structure TaskApi (W T : Type) where
  size : Nat
  getRunnableTasksCount : W → Nat
  load : W → Nat → Option T
  run : W → T → Int × W
  delayed : W → T → Bool
  exitCode : W → T → Int

/-- One iteration of the inner `for` loop that reached line 89: the index `i`, the
state in which the slot was loaded, the pointer loaded, the result of `task->run()`
when it was called, and `task->delayed()` when it was read (line 100). -/
structure Visit (W T : Type) where
  i : Nat
  world : W
  task : Option T
  runResult : Option Int
  delayed : Bool

/-- How a pass ends: `returned` is the exit branch (lines 96-99, which print
`blink.exitCode()` and return from `main`), `finished` the end of the inner loop
with the final value of `minDelay`. -/
inductive PassEnd where
  | returned (reported : Int)
  | finished (minDelay : Nat)
deriving DecidableEq, Repr

/-- The iterations of a pass, the state after it, and how it ended. -/
structure PassResult (W T : Type) where
  visits : List (Visit W T)
  world : W
  ending : PassEnd

/-- The inner loop `for (uint32_t i = 0; taskCount && i < size; ++i) ...` from the
state `(w, i, taskCount, minDelay)`.  The first argument bounds the number of
iterations; `scheduler_fuel_suffices` shows the loop never stops for lack of it. -/
def passLoop {W T : Type} [DecidableEq T] (api : TaskApi W T) (blink : T) :
    Nat → W → Nat → Nat → Nat → PassResult W T
  | 0, w, _, _, minDelay => ⟨[], w, .finished minDelay⟩
  | fuel + 1, w, i, taskCount, minDelay =>
    if taskCount ≠ 0 ∧ i < api.size then
      match api.load w i with
      | none =>
        let rest := passLoop api blink fuel w (i + 1) taskCount minDelay
        { rest with visits := ⟨i, w, none, none, false⟩ :: rest.visits }
      | some task =>
        let runResult := (api.run w task).1
        let w' := (api.run w task).2
        if runResult < 0 ∧ task = blink then
          ⟨[⟨i, w, some task, some runResult, false⟩], w', .returned (api.exitCode w' blink)⟩
        else
          let minDelay' :=
            if api.delayed w' task = true ∧ toUInt32 runResult < minDelay then toUInt32 runResult
            else minDelay
          let rest := passLoop api blink fuel w' (i + 1) (taskCount - 1) minDelay'
          { rest with
            visits := ⟨i, w, some task, some runResult, api.delayed w' task⟩ :: rest.visits }
    else ⟨[], w, .finished minDelay⟩

/-- One pass of the outer `for (;;)`: `taskCount = getRunnableTasksCount()`,
`minDelay = ~0UL` (all ones in 32 bits), then the inner loop from `i = 0`. -/
def schedulerPass {W T : Type} [DecidableEq T] (api : TaskApi W T) (blink : T) (w : W) :
    PassResult W T :=
  passLoop api blink api.size w 0 (api.getRunnableTasksCount w) 0xFFFFFFFF

/-- The number of iterations in which `run()` was called. -/
def runCount {W T : Type} (visits : List (Visit W T)) : Nat :=
  (visits.filter (fun v => v.runResult.isSome)).length

/-! ### Concrete inputs used to evaluate the definitions -/

/-- A registry of five slots holding tasks 10, 11 and 12 in slots 0, 2 and 3; task 11
(in the role of `blink`) reports the result `blinkResult` from `run()`, task 10
reports 700 and is delayed, task 12 reports 250 and is delayed.  The state counts the
calls of `run()`. -/
def demoApi (blinkResult : Int) : TaskApi Nat Nat where
  size := 5
  getRunnableTasksCount := fun _ => 3
  load := fun _ i => if i = 0 then some 10 else if i = 2 then some 11 else if i = 3 then some 12 else none
  run := fun w t => (if t = 10 then 700 else if t = 11 then blinkResult else 250, w + 1)
  delayed := fun _ t => t ≠ 11
  exitCode := fun _ _ => 42

/-- C9: on each platform branch the default task stack size plus the two 4-byte
cookie regions is exactly `MAXSTACKSPACE`, the subtraction that defines it does not
underflow (the subtrahend is at most the minuend, so the wrapped value is the exact
difference), and the default size exceeds the 8 bytes of guard overhead. -/
theorem default_stack_size_exact (p : Platform) :
    DEFAULTTASKSTACKSIZE p + 2 * SIZEOF_STACKCOOKIE = MAXSTACKSPACE p ∧
    2 * SIZEOF_STACKCOOKIE ≤ MAXSTACKSPACE p ∧
    (DEFAULTTASKSTACKSIZE p : Int) = (MAXSTACKSPACE p : Int) - 2 * (SIZEOF_STACKCOOKIE : Int) ∧
    DEFAULTTASKSTACKSIZE p < UINT32_RANGE ∧
    2 * SIZEOF_STACKCOOKIE = 8 ∧
    8 < DEFAULTTASKSTACKSIZE p := by
  cases p <;> simp [DEFAULTTASKSTACKSIZE, MAXSTACKSPACE, SIZEOF_STACKCOOKIE, UINT32_RANGE]

/-- C5: `sleep(b)` sets `sleeping()` to `b` and leaves every other data member as
it was; in particular `delayIsMs()` and `exitCode()` are unchanged. -/
theorem sleep_frame (s : CoopTask) (b : Bool) :
    (s.sleep b).sleeping = b ∧
    (s.sleep b).delayed = s.delayed ∧
    (s.sleep b).delay_ms = s.delay_ms ∧
    (s.sleep b).delay_exp = s.delay_exp ∧
    (s.sleep b).init = s.init ∧
    (s.sleep b).cont = s.cont ∧
    (s.sleep b)._exitCode = s._exitCode ∧
    (s.sleep b).taskStackTop = s.taskStackTop ∧
    (s.sleep b).taskStackSize = s.taskStackSize ∧
    (s.sleep b).taskName = s.taskName ∧
    (s.sleep b).func = s.func ∧
    (s.sleep b).env_yield = s.env_yield ∧
    (s.sleep b).delayIsMs = s.delayIsMs ∧
    (s.sleep b).exitCode = s.exitCode ∧
    s.sleep b = { s with sleeps := b } := by
  simp only [CoopTask.sleep, CoopTask.sleeping, CoopTask.delayIsMs, CoopTask.exitCode, and_self]

/-- C6: a task just constructed is not initialised and has no stack: `init` is
false, `taskStackTop` is null, `exitCode()` is 0, `sleeping()` is false, it is not
delayed, `delayIsMs()` is false, it has not exited (`cont`), and its stack size is
the constructor argument, or `DEFAULTTASKSTACKSIZE` when the argument is omitted. -/
theorem constructed_state (p : Platform) (name : String) (body : Body) (stackSize : Nat) :
    let t := CoopTask.new p name body (some stackSize)
    let d := CoopTask.new p name body none
    t.init = false ∧ t.taskStackTop = none ∧ t.exitCode = 0 ∧ t.sleeping = false ∧
    t.delayed = false ∧ t.delayIsMs = false ∧ t.cont = true ∧ t.delay_exp = 0 ∧
    t.taskStackSize = stackSize ∧ t.name = name ∧ t.func = body ∧
    d.init = false ∧ d.taskStackTop = none ∧ d.exitCode = 0 ∧ d.sleeping = false ∧
    d.delayed = false ∧ d.delayIsMs = false ∧ d.cont = true ∧ d.delay_exp = 0 ∧
    d.taskStackSize = DEFAULTTASKSTACKSIZE p ∧ d.name = name ∧ d.func = body := by
  simp only [CoopTask.new, CoopTask.exitCode, CoopTask.sleeping, CoopTask.delayIsMs,
    CoopTask.name, Option.getD_some, Option.getD_none, and_self]

/-! ## The three cases of `run()` -/

/-- An exited task: `run()` is a no-op. -/
theorem run_of_exited (t : CoopTask) (now : Clock) (hc : t.cont = false) :
    t.run now = t := by
  simp only [CoopTask.run, hc, Bool.not_false, if_true]

/-- C2 (as amended): each static suspend operation forwards to the member function
of the task `current` points to, without testing `current`.  While a task is
executing (`running()` is true) the operation is that task's member function; with
no task executing (`running()` is false) the call is a null dereference, for which
the code provides neither an abort nor a failure result. -/
theorem static_ops_forward (t : CoopTask) (now : Clock) (code : Int) (n : Nat) :
    CoopTask.Static.running (some t) = true ∧
    CoopTask.Static.exit (some t) code = .done (t._exit code) ∧
    CoopTask.Static.yield (some t) = .done t._yield ∧
    CoopTask.Static.sleep (some t) = .done t._sleep ∧
    CoopTask.Static.delay (some t) now n = .done (t._delay now n) ∧
    CoopTask.Static.delayMicroseconds (some t) now n = .done (t._delayMicroseconds now n) ∧
    CoopTask.Static.running none = false ∧
    CoopTask.Static.exit none code = .undefined ∧
    CoopTask.Static.yield none = .undefined ∧
    CoopTask.Static.sleep none = .undefined ∧
    CoopTask.Static.delay none now n = .undefined ∧
    CoopTask.Static.delayMicroseconds none now n = .undefined := by
  refine ⟨rfl, rfl, rfl, rfl, rfl, rfl, rfl, rfl, rfl, rfl, rfl, rfl⟩

/-- C2 (counterexample): with no task executing, none of the five static suspend
operations ends in a diagnosable failure. -/
theorem static_ops_unchecked_on_null :
    CoopTask.Static.running none = false ∧
    (CoopTask.Static.exit none 0).failsLoudly = false ∧
    (CoopTask.Static.yield none).failsLoudly = false ∧
    (CoopTask.Static.sleep none).failsLoudly = false ∧
    (CoopTask.Static.delay none ⟨0, 0⟩ 1000).failsLoudly = false ∧
    (CoopTask.Static.delayMicroseconds none ⟨0, 0⟩ 10).failsLoudly = false := by
  refine ⟨rfl, rfl, rfl, rfl, rfl, rfl⟩

/-! ## The scheduler pass: one step of the inner loop -/

section SchedulerPass

variable {W T : Type} [DecidableEq T]

/-- The loop condition fails: the pass is over. -/
theorem passLoop_stop (api : TaskApi W T) (blink : T) (fuel : Nat) (w : W)
    (i taskCount minDelay : Nat) (h : ¬ (taskCount ≠ 0 ∧ i < api.size)) :
    passLoop api blink (fuel + 1) w i taskCount minDelay = ⟨[], w, .finished minDelay⟩ := by
  rw [passLoop, if_neg h]

/-- The slot is null: nothing is run, the loop moves on. -/
theorem passLoop_null (api : TaskApi W T) (blink : T) (fuel : Nat) (w : W)
    (i taskCount minDelay : Nat) (h : taskCount ≠ 0 ∧ i < api.size)
    (hl : api.load w i = none) :
    passLoop api blink (fuel + 1) w i taskCount minDelay =
      { passLoop api blink fuel w (i + 1) taskCount minDelay with
        visits := ⟨i, w, none, none, false⟩ ::
          (passLoop api blink fuel w (i + 1) taskCount minDelay).visits } := by
  rw [passLoop, if_pos h]
  simp only [hl]

/-- The slot holds `blink` and its `run()` result is negative: the exit branch. -/
theorem passLoop_exit (api : TaskApi W T) (blink : T) (fuel : Nat) (w : W)
    (i taskCount minDelay : Nat) (h : taskCount ≠ 0 ∧ i < api.size) (task : T)
    (hl : api.load w i = some task) (hx : (api.run w task).1 < 0 ∧ task = blink) :
    passLoop api blink (fuel + 1) w i taskCount minDelay =
      ⟨[⟨i, w, some task, some (api.run w task).1, false⟩], (api.run w task).2,
        .returned (api.exitCode (api.run w task).2 blink)⟩ := by
  rw [passLoop, if_pos h]
  simp only [hl, if_pos hx]

/-- The slot holds a task and the exit branch is not taken: `minDelay` is updated
and the loop moves on with one task less to run. -/
theorem passLoop_run (api : TaskApi W T) (blink : T) (fuel : Nat) (w : W)
    (i taskCount minDelay : Nat) (h : taskCount ≠ 0 ∧ i < api.size) (task : T)
    (hl : api.load w i = some task) (hx : ¬ ((api.run w task).1 < 0 ∧ task = blink)) :
    passLoop api blink (fuel + 1) w i taskCount minDelay =
      { passLoop api blink fuel (api.run w task).2 (i + 1) (taskCount - 1)
          (if api.delayed (api.run w task).2 task = true ∧
              toUInt32 (api.run w task).1 < minDelay
            then toUInt32 (api.run w task).1 else minDelay) with
        visits := ⟨i, w, some task, some (api.run w task).1,
            api.delayed (api.run w task).2 task⟩ ::
          (passLoop api blink fuel (api.run w task).2 (i + 1) (taskCount - 1)
            (if api.delayed (api.run w task).2 task = true ∧
                toUInt32 (api.run w task).1 < minDelay
              then toUInt32 (api.run w task).1 else minDelay)).visits } := by
  rw [passLoop, if_pos h]
  simp only [hl, if_neg hx]

/-- The iteration bound is never what stops the loop: once it covers the slots that
are left, one more unit changes nothing.  `schedulerPass` starts with `size` units
at `i = 0`. -/
theorem scheduler_fuel_suffices (api : TaskApi W T) (blink : T) (fuel : Nat) :
    ∀ (w : W) (i taskCount minDelay : Nat), api.size ≤ i + fuel →
      passLoop api blink (fuel + 1) w i taskCount minDelay =
        passLoop api blink fuel w i taskCount minDelay := by
  induction fuel with
  | zero =>
    intro w i taskCount minDelay h
    rw [passLoop_stop api blink 0 w i taskCount minDelay (by omega)]
    rfl
  | succ k ih =>
    intro w i taskCount minDelay h
    by_cases hc : taskCount ≠ 0 ∧ i < api.size
    · cases hl : api.load w i with
      | none =>
        rw [passLoop_null api blink (k + 1) w i taskCount minDelay hc hl,
          passLoop_null api blink k w i taskCount minDelay hc hl,
          ih w (i + 1) taskCount minDelay (by omega)]
      | some task =>
        by_cases hx : (api.run w task).1 < 0 ∧ task = blink
        · rw [passLoop_exit api blink (k + 1) w i taskCount minDelay hc task hl hx,
            passLoop_exit api blink k w i taskCount minDelay hc task hl hx]
        · rw [passLoop_run api blink (k + 1) w i taskCount minDelay hc task hl hx,
            passLoop_run api blink k w i taskCount minDelay hc task hl hx,
            ih _ (i + 1) _ _ (by omega)]
    · rw [passLoop_stop api blink (k + 1) w i taskCount minDelay hc,
        passLoop_stop api blink k w i taskCount minDelay hc]

end SchedulerPass

/-! ## The scheduler pass: invariants of the inner loop -/

section SchedulerInvariants

variable {W T : Type} [DecidableEq T]

/-- The slots are loaded at consecutive indices starting from `i`, each below the
size of the registry. -/
theorem passLoop_indices (api : TaskApi W T) (blink : T) (fuel : Nat) :
    ∀ (w : W) (i taskCount minDelay : Nat),
      (passLoop api blink fuel w i taskCount minDelay).visits.map (fun v => v.i) =
          List.range' i (passLoop api blink fuel w i taskCount minDelay).visits.length ∧
      ∀ v ∈ (passLoop api blink fuel w i taskCount minDelay).visits, v.i < api.size := by
  induction fuel with
  | zero =>
    intro w i taskCount minDelay
    simp [passLoop]
  | succ k ih =>
    intro w i taskCount minDelay
    by_cases hc : taskCount ≠ 0 ∧ i < api.size
    · cases hl : api.load w i with
      | none =>
        rw [passLoop_null api blink k w i taskCount minDelay hc hl]
        obtain ⟨h1, h2⟩ := ih w (i + 1) taskCount minDelay
        refine ⟨?_, ?_⟩
        · simp only [List.map_cons, List.length_cons, List.range'_succ, h1]
        · intro v hv
          rcases List.mem_cons.mp hv with rfl | hv
          · exact hc.2
          · exact h2 v hv
      | some task =>
        by_cases hx : (api.run w task).1 < 0 ∧ task = blink
        · rw [passLoop_exit api blink k w i taskCount minDelay hc task hl hx]
          refine ⟨by simp [List.range'], ?_⟩
          intro v hv
          rcases List.mem_singleton.mp hv with rfl
          exact hc.2
        · rw [passLoop_run api blink k w i taskCount minDelay hc task hl hx]
          obtain ⟨h1, h2⟩ := ih (api.run w task).2 (i + 1) (taskCount - 1)
            (if api.delayed (api.run w task).2 task = true ∧
                toUInt32 (api.run w task).1 < minDelay
              then toUInt32 (api.run w task).1 else minDelay)
          refine ⟨?_, ?_⟩
          · simp only [List.map_cons, List.length_cons, List.range'_succ, h1]
          · intro v hv
            rcases List.mem_cons.mp hv with rfl | hv
            · exact hc.2
            · exact h2 v hv
    · rw [passLoop_stop api blink k w i taskCount minDelay hc]
      simp

/-- In every iteration the pointer is the one loaded from the slot in the state of
that moment, and `run()` is called exactly when it is not null, on that pointer. -/
theorem passLoop_runs_loaded (api : TaskApi W T) (blink : T) (fuel : Nat) :
    ∀ (w : W) (i taskCount minDelay : Nat),
      ∀ v ∈ (passLoop api blink fuel w i taskCount minDelay).visits,
        v.task = api.load v.world v.i ∧
        v.runResult = v.task.map (fun t => (api.run v.world t).1) := by
  induction fuel with
  | zero =>
    intro w i taskCount minDelay
    simp [passLoop]
  | succ k ih =>
    intro w i taskCount minDelay
    by_cases hc : taskCount ≠ 0 ∧ i < api.size
    · cases hl : api.load w i with
      | none =>
        rw [passLoop_null api blink k w i taskCount minDelay hc hl]
        intro v hv
        rcases List.mem_cons.mp hv with rfl | hv
        · simp [hl]
        · exact ih _ _ _ _ v hv
      | some task =>
        by_cases hx : (api.run w task).1 < 0 ∧ task = blink
        · rw [passLoop_exit api blink k w i taskCount minDelay hc task hl hx]
          intro v hv
          rcases List.mem_singleton.mp hv with rfl
          simp [hl]
        · rw [passLoop_run api blink k w i taskCount minDelay hc task hl hx]
          intro v hv
          rcases List.mem_cons.mp hv with rfl | hv
          · simp [hl]
          · exact ih _ _ _ _ v hv
    · rw [passLoop_stop api blink k w i taskCount minDelay hc]
      simp

end SchedulerInvariants

/-! ## The scheduler pass: the budget of `run()` calls -/

/-- Counting the `run()` calls of a list of iterations, head first. -/
theorem runCount_cons {W T : Type} (v : Visit W T) (vs : List (Visit W T)) :
    runCount (v :: vs) = (if v.runResult.isSome = true then 1 else 0) + runCount vs := by
  unfold runCount
  rw [List.filter_cons]
  split <;> simp [Nat.add_comm]

section SchedulerBudget

variable {W T : Type} [DecidableEq T]

/-- A slot is loaded only while fewer than `taskCount` calls of `run()` have been
made, and the pass makes at most `taskCount` calls in all. -/
theorem passLoop_budget (api : TaskApi W T) (blink : T) (fuel : Nat) :
    ∀ (w : W) (i taskCount minDelay : Nat),
      (∀ k, k < (passLoop api blink fuel w i taskCount minDelay).visits.length →
        runCount ((passLoop api blink fuel w i taskCount minDelay).visits.take k) < taskCount) ∧
      runCount (passLoop api blink fuel w i taskCount minDelay).visits ≤ taskCount := by
  induction fuel with
  | zero =>
    intro w i taskCount minDelay
    simp [passLoop, runCount]
  | succ n ih =>
    intro w i taskCount minDelay
    by_cases hc : taskCount ≠ 0 ∧ i < api.size
    · have hpos : 0 < taskCount := Nat.pos_of_ne_zero hc.1
      cases hl : api.load w i with
      | none =>
        rw [passLoop_null api blink n w i taskCount minDelay hc hl]
        obtain ⟨h1, h2⟩ := ih w (i + 1) taskCount minDelay
        refine ⟨?_, ?_⟩
        · intro k hk
          cases k with
          | zero => simpa [runCount] using hpos
          | succ j =>
            have hj : j < (passLoop api blink n w (i + 1) taskCount minDelay).visits.length := by
              simpa using hk
            have := h1 j hj
            simpa [List.take_succ_cons, runCount_cons] using this
        · simpa [runCount_cons] using h2
      | some task =>
        by_cases hx : (api.run w task).1 < 0 ∧ task = blink
        · rw [passLoop_exit api blink n w i taskCount minDelay hc task hl hx]
          refine ⟨?_, ?_⟩
          · intro k hk
            have hk0 : k = 0 := by simpa using hk
            subst hk0
            simpa [runCount] using hpos
          · simp only [runCount_cons, Option.isSome_some, if_true]
            simp only [runCount, List.filter_nil, List.length_nil]
            omega
        · rw [passLoop_run api blink n w i taskCount minDelay hc task hl hx]
          obtain ⟨h1, h2⟩ := ih (api.run w task).2 (i + 1) (taskCount - 1)
            (if api.delayed (api.run w task).2 task = true ∧
                toUInt32 (api.run w task).1 < minDelay
              then toUInt32 (api.run w task).1 else minDelay)
          refine ⟨?_, ?_⟩
          · intro k hk
            cases k with
            | zero => simpa [runCount] using hpos
            | succ j =>
              have hj := h1 j (by simpa using hk)
              simp only [List.take_succ_cons, runCount_cons, Option.isSome_some, if_true]
              omega
          · simp only [runCount_cons, Option.isSome_some, if_true]
            omega
    · rw [passLoop_stop api blink n w i taskCount minDelay hc]
      simp [runCount]

/-- A pass that reaches the end of the inner loop with calls of `run()` to spare has
gone through the registry up to its last slot. -/
theorem passLoop_full (api : TaskApi W T) (blink : T) (fuel : Nat) :
    ∀ (w : W) (i taskCount minDelay m : Nat), api.size ≤ i + fuel →
      (passLoop api blink fuel w i taskCount minDelay).ending = .finished m →
      runCount (passLoop api blink fuel w i taskCount minDelay).visits < taskCount →
      api.size ≤ i + (passLoop api blink fuel w i taskCount minDelay).visits.length := by
  induction fuel with
  | zero =>
    intro w i taskCount minDelay m hf _ _
    simpa [passLoop] using hf
  | succ n ih =>
    intro w i taskCount minDelay m hf he hr
    by_cases hc : taskCount ≠ 0 ∧ i < api.size
    · cases hl : api.load w i with
      | none =>
        rw [passLoop_null api blink n w i taskCount minDelay hc hl] at he hr ⊢
        have hr' : runCount (passLoop api blink n w (i + 1) taskCount minDelay).visits <
            taskCount := by
          simpa [runCount_cons] using hr
        have := ih w (i + 1) taskCount minDelay m (by omega) he hr'
        simp only [List.length_cons]
        omega
      | some task =>
        by_cases hx : (api.run w task).1 < 0 ∧ task = blink
        · rw [passLoop_exit api blink n w i taskCount minDelay hc task hl hx] at he
          cases he
        · rw [passLoop_run api blink n w i taskCount minDelay hc task hl hx] at he hr ⊢
          simp only [runCount_cons, Option.isSome_some, if_true] at hr
          have := ih _ (i + 1) (taskCount - 1) _ m (by omega) he (by omega)
          simp only [List.length_cons]
          omega
    · rw [passLoop_stop api blink n w i taskCount minDelay hc] at hr ⊢
      have h0 : 0 < taskCount := by simpa [runCount] using hr
      simp only [List.length_nil]
      omega

/-- The exit branch is taken only on a negative `run()` result of `blink`. -/
theorem passLoop_returned_only_negative (api : TaskApi W T) (blink : T) (fuel : Nat) :
    ∀ (w : W) (i taskCount minDelay : Nat) (code : Int),
      (passLoop api blink fuel w i taskCount minDelay).ending = .returned code →
      ∃ v ∈ (passLoop api blink fuel w i taskCount minDelay).visits,
        v.task = some blink ∧ ∃ r, v.runResult = some r ∧ r < 0 := by
  induction fuel with
  | zero =>
    intro w i taskCount minDelay code h
    simp [passLoop] at h
  | succ n ih =>
    intro w i taskCount minDelay code h
    by_cases hc : taskCount ≠ 0 ∧ i < api.size
    · cases hl : api.load w i with
      | none =>
        rw [passLoop_null api blink n w i taskCount minDelay hc hl] at h ⊢
        obtain ⟨v, hv, hrest⟩ := ih _ _ _ _ code h
        exact ⟨v, List.mem_cons_of_mem _ hv, hrest⟩
      | some task =>
        by_cases hx : (api.run w task).1 < 0 ∧ task = blink
        · rw [passLoop_exit api blink n w i taskCount minDelay hc task hl hx]
          exact ⟨_, List.mem_singleton.mpr rfl, by simp [hx.2], _, rfl, hx.1⟩
        · rw [passLoop_run api blink n w i taskCount minDelay hc task hl hx] at h ⊢
          obtain ⟨v, hv, hrest⟩ := ih _ _ _ _ code h
          exact ⟨v, List.mem_cons_of_mem _ hv, hrest⟩
    · rw [passLoop_stop api blink n w i taskCount minDelay hc] at h
      cases h

/-- A negative `run()` result of `blink` ends the pass in the exit branch, and the
code reported is `blink.exitCode()` in the state that call of `run()` left. -/
theorem passLoop_returned_of_negative (api : TaskApi W T) (blink : T) (fuel : Nat) :
    ∀ (w : W) (i taskCount minDelay : Nat),
      ((∃ v ∈ (passLoop api blink fuel w i taskCount minDelay).visits,
          v.task = some blink ∧ ∃ r, v.runResult = some r ∧ r < 0) →
        (passLoop api blink fuel w i taskCount minDelay).ending =
          .returned (api.exitCode (passLoop api blink fuel w i taskCount minDelay).world blink)) ∧
      (∀ code, (passLoop api blink fuel w i taskCount minDelay).ending = .returned code →
        code = api.exitCode (passLoop api blink fuel w i taskCount minDelay).world blink) := by
  induction fuel with
  | zero =>
    intro w i taskCount minDelay
    simp [passLoop]
  | succ n ih =>
    intro w i taskCount minDelay
    by_cases hc : taskCount ≠ 0 ∧ i < api.size
    · cases hl : api.load w i with
      | none =>
        rw [passLoop_null api blink n w i taskCount minDelay hc hl]
        obtain ⟨h1, h2⟩ := ih w (i + 1) taskCount minDelay
        refine ⟨?_, h2⟩
        rintro ⟨v, hv, hvt, hvr⟩
        rcases List.mem_cons.mp hv with rfl | hv
        · simp at hvt
        · exact h1 ⟨v, hv, hvt, hvr⟩
      | some task =>
        by_cases hx : (api.run w task).1 < 0 ∧ task = blink
        · rw [passLoop_exit api blink n w i taskCount minDelay hc task hl hx]
          refine ⟨fun _ => rfl, ?_⟩
          intro code h
          simp only [PassEnd.returned.injEq] at h
          exact h.symm
        · rw [passLoop_run api blink n w i taskCount minDelay hc task hl hx]
          obtain ⟨h1, h2⟩ := ih (api.run w task).2 (i + 1) (taskCount - 1)
            (if api.delayed (api.run w task).2 task = true ∧
                toUInt32 (api.run w task).1 < minDelay
              then toUInt32 (api.run w task).1 else minDelay)
          refine ⟨?_, h2⟩
          rintro ⟨v, hv, hvt, r, hvr, hneg⟩
          rcases List.mem_cons.mp hv with rfl | hv
          · simp only [Option.some.injEq] at hvt hvr
            exact absurd ⟨by rw [hvr]; exact hneg, hvt⟩ hx
          · exact h1 ⟨v, hv, hvt, r, hvr, hneg⟩
    · rw [passLoop_stop api blink n w i taskCount minDelay hc]
      simp

end SchedulerBudget

/-! ## The scheduler pass: the claims -/

/-- C8: in one pass over any registry content and for any initial count `n` of
runnable tasks, `run()` is called exactly on the non-null pointers loaded (never on
a null slot), at most `n` times; the slots are loaded at indices 0, 1, 2, ... in
order, each below the size of the registry; a slot is loaded only while fewer than
`n` calls of `run()` have been made, so the pass stops as soon as `n` non-null slots
have been run; and a pass that ends with calls to spare has covered the registry. -/
theorem scheduler_pass_safety {W T : Type} [DecidableEq T] (api : TaskApi W T) (blink : T)
    (w : W) :
    (∀ v ∈ (schedulerPass api blink w).visits,
      v.task = api.load v.world v.i ∧
      v.runResult = v.task.map (fun t => (api.run v.world t).1) ∧
      v.runResult.isSome = v.task.isSome) ∧
    runCount (schedulerPass api blink w).visits ≤ api.getRunnableTasksCount w ∧
    (schedulerPass api blink w).visits.map (fun v => v.i) =
      List.range (schedulerPass api blink w).visits.length ∧
    (∀ v ∈ (schedulerPass api blink w).visits, v.i < api.size) ∧
    (schedulerPass api blink w).visits.length ≤ api.size ∧
    (∀ k, k < (schedulerPass api blink w).visits.length →
      runCount ((schedulerPass api blink w).visits.take k) < api.getRunnableTasksCount w) ∧
    (∀ m, (schedulerPass api blink w).ending = .finished m →
      runCount (schedulerPass api blink w).visits < api.getRunnableTasksCount w →
      (schedulerPass api blink w).visits.length = api.size) := by
  unfold schedulerPass
  have hload := passLoop_runs_loaded api blink api.size w 0 (api.getRunnableTasksCount w)
    0xFFFFFFFF
  have hidx := passLoop_indices api blink api.size w 0 (api.getRunnableTasksCount w) 0xFFFFFFFF
  have hbud := passLoop_budget api blink api.size w 0 (api.getRunnableTasksCount w) 0xFFFFFFFF
  have hfull := passLoop_full api blink api.size w 0 (api.getRunnableTasksCount w) 0xFFFFFFFF
  generalize passLoop api blink api.size w 0 (api.getRunnableTasksCount w) 0xFFFFFFFF = r
    at hload hidx hbud hfull ⊢
  have hlen : r.visits.length ≤ api.size := by
    by_contra hgt
    have hmem : api.size ∈ List.range' 0 r.visits.length := by
      rw [List.mem_range']
      exact ⟨api.size, by omega, by omega⟩
    rw [← hidx.1, List.mem_map] at hmem
    obtain ⟨v, hv, hvi⟩ := hmem
    have := hidx.2 v hv
    omega
  refine ⟨?_, hbud.2, ?_, hidx.2, hlen, hbud.1, ?_⟩
  · intro v hv
    obtain ⟨h1, h2⟩ := hload v hv
    refine ⟨h1, h2, ?_⟩
    rw [h2]
    cases v.task <;> rfl
  · rw [hidx.1, List.range_eq_range']
  · intro m hm hr
    have := hfull m (by omega) hm hr
    omega

/-- C10 (as amended): the driver takes the exit branch, reporting `blink.exitCode()`
and returning from `main`, exactly when a `run()` of `blink` made in the pass returns
a negative result; the code reported is the exit code of `blink` after that call.  No
other result of `run()`, 0 included, takes the exit branch. -/
theorem driver_exit_branch {W T : Type} [DecidableEq T] (api : TaskApi W T) (blink : T)
    (w : W) (code : Int) :
    (schedulerPass api blink w).ending = .returned code ↔
      ((∃ v ∈ (schedulerPass api blink w).visits,
          v.task = some blink ∧ ∃ r, v.runResult = some r ∧ r < 0) ∧
        code = api.exitCode (schedulerPass api blink w).world blink) := by
  unfold schedulerPass
  have hneg := passLoop_returned_only_negative api blink api.size w 0
    (api.getRunnableTasksCount w) 0xFFFFFFFF code
  have hret := passLoop_returned_of_negative api blink api.size w 0
    (api.getRunnableTasksCount w) 0xFFFFFFFF
  generalize passLoop api blink api.size w 0 (api.getRunnableTasksCount w) 0xFFFFFFFF = r
    at hneg hret ⊢
  constructor
  · intro h
    exact ⟨hneg h, hret.2 code h⟩
  · rintro ⟨hv, hcode⟩
    rw [hcode]
    exact hret.1 hv

/-- C10 (counterexample): `blink` (task 11, slot 2) is visited and its `run()`
returns 0; the pass does not take the exit branch but goes on to slot 3 and ends the
inner loop with `minDelay = 250`.  With
the result -1 in place of 0 the driver reports the exit code 42 and returns. -/
theorem driver_ignores_exit_status_zero :
    (schedulerPass (demoApi 0) 11 0).ending = .finished 250 ∧
    (∀ code, (schedulerPass (demoApi 0) 11 0).ending ≠ .returned code) ∧
    (schedulerPass (demoApi 0) 11 0).visits.map (fun v => (v.i, v.task, v.runResult)) =
      [(0, some 10, some 700), (1, none, none), (2, some 11, some 0), (3, some 12, some 250)] ∧
    (schedulerPass (demoApi (-1)) 11 0).ending = .returned 42 := by
  refine ⟨by decide, ?_, by decide, by decide⟩
  intro code h
  have h250 : (schedulerPass (demoApi 0) 11 0).ending = .finished 250 := by decide
  rw [h250] at h
  cases h
